import Mathlib

/-!
Shallow embedding of the transaction-commitment pipeline:
the committer's finality resolver and listener registry
(platform/fabric/core/generic/committer/committer.go),
the endorsement-collection view
(platform/fabric/core/generic/committer/config.go, package endorser),
and the view-manager child context (platform/view/core/manager/wrapper.go).
External collaborators (status oracle, peer finality service, session
transport, verifiers) are parameters of an environment record; control
effects (timeouts, channel receives, panics) are represented as explicit
outcome data, and listener-registry mutation is explicit state passing.
-/

namespace Committer

abbrev TxID := Nat

abbrev ChanID := Nat

/-- The listener registry `c.listeners : map[string][]chan TxEvent`,
modelled as a total function: an id absent from the Go map is an id mapped
to the empty list (behaviour of lookup, append and delete is identical). -/
abbrev Listeners := TxID → List ChanID

/-- driver.ValidationCode values consumed by `IsFinal`. -/
inductive VStatus where
  | valid
  | invalid
  | busy
  | hasDependencies
  | unknown
deriving DecidableEq

/-- Errors produced by the committer functions (Go `error` values). -/
inductive GoErr where
  | committerErr
  | vaultStatus (txid : TxID)
  | notValid (txid : TxID)
  | timeoutErr (txid : TxID) (lastStatus : Option VStatus)
  | outOfFuel
  | txEventErr (code : Nat)
  | externalErr (txid : TxID) (code : Nat)
deriving DecidableEq

/-- TxEvent: transaction id, terminal error (none = valid), dependent ids. -/
structure TxEvent where
  txid : TxID
  err : Option GoErr
  dependantTxIDs : List TxID
deriving DecidableEq

/-- What happens on the `select` in `listenTo`: either an event arrives on
the subscriber channel first, or the timeout fires first. -/
inductive ListenOutcome where
  | event (e : TxEvent)
  | timeout

/-- Environment of collaborators of `IsFinal`/`listenTo`:
`committerOk` models `c.network.Committer(c.channel)` succeeding,
`status` the oracle `committer.Status(txid)` at the initial query,
`statusOnTimeout` the oracle at the re-query after the timeout fired,
`external` the result of `c.finality.IsFinal(txid, address)`,
`listenOutcome` the select outcome, `newChan` the fresh channel
allocated by `make(chan TxEvent, 100)`. -/
structure FinEnv where
  committerOk : Bool
  status : TxID → Except Unit (VStatus × List TxID)
  statusOnTimeout : TxID → Except Unit (VStatus × List TxID)
  external : TxID → Option GoErr
  listenOutcome : TxID → ListenOutcome
  newChan : ChanID

/-- Observable calls made to collaborators, in order. -/
inductive LogEntry where
  | statusQuery (txid : TxID)
  | externalFinality (txid : TxID)
  | subscribed (txid : TxID) (ch : ChanID)
  | eventReceived (txid : TxID)
  | timedOut (txid : TxID)
  | statusRequery (txid : TxID)
  | unsubscribed (txid : TxID) (ch : ChanID)
deriving DecidableEq

/-- `addListener`: append `ch` at the end of the list registered for `txid`. -/
def addListener (st : Listeners) (txid : TxID) (ch : ChanID) : Listeners :=
  fun t => if t = txid then st t ++ [ch] else st t

/-- The loop body of `deleteListener`: remove the first occurrence of `ch`,
leave the list unchanged when `ch` does not occur. -/
def removeFirstChan (ch : ChanID) : List ChanID → List ChanID
  | [] => []
  | l :: ls => if l = ch then ls else l :: removeFirstChan ch ls

/-- `deleteListener`: remove the first channel equal to `ch` under `txid`;
a no-op when the id is unknown or the channel is not registered. -/
def deleteListener (st : Listeners) (txid : TxID) (ch : ChanID) : Listeners :=
  fun t => if t = txid then removeFirstChan ch (st t) else st t

/-- `notify`: under the mutex, send `e` to every channel registered for
`e.txid`, then to every channel registered for each dependant id.  The
result is the ordered list of (channel, event) sends performed. -/
def notify (st : Listeners) (e : TxEvent) : List (ChanID × TxEvent) :=
  (st e.txid).map (fun ch => (ch, e)) ++
    (e.dependantTxIDs.flatMap fun t => (st t).map fun ch => (ch, e))

/-- `listenTo`: subscribe a fresh channel, block on it or the timeout, and
unsubscribe on return (the Go `defer c.deleteListener(txid, ch)`). On
timeout, fetch the committer and re-query the status once. -/
def listenTo (env : FinEnv) (ch : ChanID) (st : Listeners) (txid : TxID) :
    Option GoErr × Listeners × List LogEntry :=
  let st1 := addListener st txid ch
  match env.listenOutcome txid with
  | .event e =>
      (e.err, deleteListener st1 txid ch,
        [.subscribed txid ch, .eventReceived txid, .unsubscribed txid ch])
  | .timeout =>
      if env.committerOk then
        match env.statusOnTimeout txid with
        | .ok (vd, _) =>
            match vd with
            | .valid =>
                (none, deleteListener st1 txid ch,
                  [.subscribed txid ch, .timedOut txid, .statusRequery txid,
                   .unsubscribed txid ch])
            | .invalid =>
                (some (.notValid txid), deleteListener st1 txid ch,
                  [.subscribed txid ch, .timedOut txid, .statusRequery txid,
                   .unsubscribed txid ch])
            | vd' =>
                (some (.timeoutErr txid (some vd')), deleteListener st1 txid ch,
                  [.subscribed txid ch, .timedOut txid, .statusRequery txid,
                   .unsubscribed txid ch])
        | .error _ =>
            (some (.timeoutErr txid none), deleteListener st1 txid ch,
              [.subscribed txid ch, .timedOut txid, .statusRequery txid,
               .unsubscribed txid ch])
      else
        (some .committerErr, deleteListener st1 txid ch,
          [.subscribed txid ch, .timedOut txid, .unsubscribed txid ch])

/-- The dependency loop of `IsFinal`: resolve each dependency in order with
`f`, stopping at the first failure. -/
def resolveDepsWith
    (f : Listeners → TxID → Option GoErr × Listeners × List LogEntry) :
    Listeners → List TxID → Option GoErr × Listeners × List LogEntry
  | st, [] => (none, st, [])
  | st, d :: ds =>
      match f st d with
      | (some e, st2, lg) => (some e, st2, lg)
      | (none, st2, lg) =>
          let r := resolveDepsWith f st2 ds
          (r.1, r.2.1, lg ++ r.2.2)

/-- `IsFinal`: fetch the committer, query the status, and branch.
Valid/Invalid decide immediately; Busy or HasDependencies with a non-empty
list recursively resolve each dependency (fuel bounds the recursion depth,
which the Go code leaves unbounded); Busy with an empty list falls out of
the switch into `listenTo`; HasDependencies with an empty list and Unknown
delegate to the external peer finality service. -/
def IsFinal (env : FinEnv) :
    Nat → Listeners → TxID → Option GoErr × Listeners × List LogEntry
  | fuel, st, txid =>
    if env.committerOk then
      match env.status txid with
      | .error _ => (some (.vaultStatus txid), st, [.statusQuery txid])
      | .ok (vd, deps) =>
          match vd with
          | .valid => (none, st, [.statusQuery txid])
          | .invalid => (some (.notValid txid), st, [.statusQuery txid])
          | .busy =>
              if deps = [] then
                let r := listenTo env env.newChan st txid
                (r.1, r.2.1, .statusQuery txid :: r.2.2)
              else
                match fuel with
                | 0 => (some .outOfFuel, st, [.statusQuery txid])
                | fuel' + 1 =>
                    let r := resolveDepsWith
                      (fun s t => IsFinal env fuel' s t) st deps
                    (r.1, r.2.1, .statusQuery txid :: r.2.2)
          | .hasDependencies =>
              if deps = [] then
                (env.external txid, st,
                  [.statusQuery txid, .externalFinality txid])
              else
                match fuel with
                | 0 => (some .outOfFuel, st, [.statusQuery txid])
                | fuel' + 1 =>
                    let r := resolveDepsWith
                      (fun s t => IsFinal env fuel' s t) st deps
                    (r.1, r.2.1, .statusQuery txid :: r.2.2)
          | .unknown =>
              (env.external txid, st,
                [.statusQuery txid, .externalFinality txid])
    else
      (some .committerErr, st, [])

/-- One entry of `block.Data.Data`, after the three unmarshalling steps of
`Commit` (envelope, payload, channel header); the first failing step is
recorded, otherwise the header type and tx id are exposed. -/
inductive TxData where
  | badEnvelope
  | badPayload
  | badChannelHeader
  | decoded (htype : Nat) (txid : TxID)
deriving DecidableEq

/-- A block: `Data.Data` entries and the `Metadata.Metadata` array of
per-index metadata byte strings. -/
structure Block where
  data : List TxData
  metadata : List (List Nat)
deriving DecidableEq

def HeaderType_CONFIG : Nat := 1

def HeaderType_ENDORSER_TRANSACTION : Nat := 3

def BlockMetadataIndex_TRANSACTIONS_FILTER : Nat := 2

inductive CommitErr where
  | envelopeErr
  | payloadErr
  | channelHeaderErr
  | metadataLacksFilter
deriving DecidableEq

/-- Collaborators of `Commit`: `handleEndorserTransaction` (not under the
committer sources; it fills the TxEvent from the block's validation codes)
is opaque. `handleConfig` touches no event, so it needs no field here. -/
structure CommitEnv where
  handleEndorser : Block → Nat → TxEvent

/-- The zero value of `var event TxEvent` (empty id, nil error, no deps),
notified unchanged for config and unrecognized transactions. -/
def emptyEvent : TxEvent := { txid := 0, err := none, dependantTxIDs := [] }

/-- The loop body of `Commit` over `block.Data.Data`, threading the index.
The returned list is the sequence of `c.notify(event)` calls, in block
order; the first unmarshalling failure or missing-metadata check aborts
the whole block with an error. -/
def commitLoop (env : CommitEnv) (b : Block) :
    List TxData → Nat → Except CommitErr (List TxEvent)
  | [], _ => .ok []
  | td :: rest, i =>
      match td with
      | .badEnvelope => .error .envelopeErr
      | .badPayload => .error .payloadErr
      | .badChannelHeader => .error .channelHeaderErr
      | .decoded ht _ =>
          let evE : Except CommitErr TxEvent :=
            if ht = HeaderType_CONFIG then .ok emptyEvent
            else if ht = HeaderType_ENDORSER_TRANSACTION then
              if b.metadata.length < BlockMetadataIndex_TRANSACTIONS_FILTER then
                .error .metadataLacksFilter
              else .ok (env.handleEndorser b i)
            else .ok emptyEvent
          match evE with
          | .error e => .error e
          | .ok ev =>
              match commitLoop env b rest (i + 1) with
              | .error e => .error e
              | .ok evs => .ok (ev :: evs)

/-- `Commit`: process the transactions of a block in order. -/
def Commit (env : CommitEnv) (b : Block) : Except CommitErr (List TxEvent) :=
  commitLoop env b b.data 0

end Committer

namespace Endorser

abbrev Bytes := List Nat

abbrev Identity := List Nat

/-- A deserialized ProposalResponse: endorser identity, payload, signature
over (payload ++ endorser), and simulation results. -/
structure ProposalResponse where
  endorser : Identity
  payload : Bytes
  endorserSignature : Bytes
  results : Bytes
deriving DecidableEq

/-- One element of the marshalled response array: either bytes that
`NewProposalResponseFromBytes` rejects, or a well-formed response. -/
inductive RawResponse where
  | malformed
  | wellFormed (r : ProposalResponse)
deriving DecidableEq

/-- The outcome of the session exchange with one remote party: the select
times out, or a message arrives with ERROR status, or with a payload that
`json.Unmarshal` rejects, or with a decoded array of responses. -/
inductive ReplyMsg where
  | timeout
  | errorMsg (payload : Bytes)
  | badPayload
  | responses (rs : List RawResponse)

/-- A signature verifier: `Verify(message, sig)` as a boolean predicate. -/
abbrev Verifier := Bytes → Bytes → Bool

/-- Environment of `collectEndorsementsView.Call`: the tracker, channel,
`tx.Results()`, local-identity test and local endorsement, marshalling,
session transport, the per-party reply, the endpoint binding check, the
MSP manager's verifier lookup, the pluggable verifier providers
(`c.verifierProviders ++ c.tx.verifierProviders`, in order), and
`tx.AppendProposalResponse`. -/
structure EndorseEnv where
  trackerOk : Bool
  channelOk : Bool
  fnsOk : Bool
  localResults : Option Bytes
  isMe : Identity → Bool
  endorseLocalOk : Identity → Bool
  marshalOk : Bool
  sessionOk : Identity → Bool
  sendOk : Identity → Bool
  reply : Identity → ReplyMsg
  isBoundTo : Identity → Identity → Bool
  mspVerifier : Identity → Option Verifier
  providers : List (Identity → Option Verifier)
  appendOk : ProposalResponse → Bool

inductive EndorseErr where
  | trackerErr
  | channelErr
  | resultsErr
  | endorseFailed (party : Identity)
  | marshalErr
  | sessionErr (party : Identity)
  | sendErr (party : Identity)
  | timeoutFrom (party : Identity)
  | appErr (payload : Bytes)
  | unmarshalErr
  | fnsNotFound
  | responseUnmarshalErr
  | verifierNotFound (endorser : Identity)
  | invalidSignature (endorser : Identity)
  | differentResults
  | appendFailed
  | invalidEndorsement (party : Identity)
deriving DecidableEq

/-- The fallback loop over verifier providers: first provider that
resolves a verifier for the endorser wins. -/
def findVerifier : List (Identity → Option Verifier) → Identity → Option Verifier
  | [], _ => none
  | p :: ps, e =>
      match p e with
      | some v => some v
      | none => findVerifier ps e

/-- Verifier resolution: `mspManager.GetVerifier(endorser)` first, then the
pluggable providers. -/
def getVerifier (env : EndorseEnv) (endorser : Identity) : Option Verifier :=
  match env.mspVerifier endorser with
  | some v => some v
  | none => findVerifier env.providers endorser

/-- The inner response loop of `Call` for one party: for each response,
record whether its endorser is bound to the party, resolve a verifier,
verify the signature over (payload ++ endorser), compare the results with
the locally computed `res`, and append the response to the transaction.
Returns (responses appended so far, found flag, first error if any);
responses appended before a failing response stay appended. -/
def processResponses (env : EndorseEnv) (party : Identity) (res : Bytes) :
    List RawResponse → Bool → List ProposalResponse × Bool × Option EndorseErr
  | [], found => ([], found, none)
  | .malformed :: _, found => ([], found, some .responseUnmarshalErr)
  | .wellFormed r :: rest, found =>
      let found' := found || env.isBoundTo r.endorser party
      match getVerifier env r.endorser with
      | none => ([], found', some (.verifierNotFound r.endorser))
      | some v =>
          if v (r.payload ++ r.endorser) r.endorserSignature then
            if res = r.results then
              if env.appendOk r then
                let out := processResponses env party res rest found'
                (r :: out.1, out.2)
              else ([], found', some .appendFailed)
            else ([], found', some .differentResults)
          else ([], found', some (.invalidSignature r.endorser))

/-- The per-party step of `Call`: local parties endorse in-process; remote
parties get the marshalled transaction over a session and their reply is
checked response by response; after the response loop, a party none of
whose responses was bound to it yields the invalid-endorsement error. -/
def processParty (env : EndorseEnv) (res : Bytes) (party : Identity) :
    List ProposalResponse × Option EndorseErr :=
  if env.isMe party then
    if env.endorseLocalOk party then ([], none)
    else ([], some (.endorseFailed party))
  else if !env.marshalOk then ([], some .marshalErr)
  else if !env.sessionOk party then ([], some (.sessionErr party))
  else if !env.sendOk party then ([], some (.sendErr party))
  else
    match env.reply party with
    | .timeout => ([], some (.timeoutFrom party))
    | .errorMsg p => ([], some (.appErr p))
    | .badPayload => ([], some .unmarshalErr)
    | .responses rs =>
        if !env.fnsOk then ([], some .fnsNotFound)
        else
          let out := processResponses env party res rs false
          match out.2.2 with
          | some e => (out.1, some e)
          | none =>
              if out.2.1 then (out.1, none)
              else (out.1, some (.invalidEndorsement party))

/-- The party loop of `Call`: sequential, aborting at the first failing
party; responses appended by earlier parties (and by the failing party
before its failure) stay appended. -/
def collectParties (env : EndorseEnv) (res : Bytes) :
    List Identity → List ProposalResponse × Option EndorseErr
  | [] => ([], none)
  | party :: rest =>
      let out := processParty env res party
      match out.2 with
      | some e => (out.1, some e)
      | none =>
          let out2 := collectParties env res rest
          (out.1 ++ out2.1, out2.2)

/-- `collectEndorsementsView.Call`: tracker, channel and `tx.Results()`
first, then the party loop.  The first component is the list of proposal
responses appended onto the shared transaction, in collection order; the
call succeeds (returns the transaction) iff the second component is
`none`. -/
def collectEndorsementsCall (env : EndorseEnv) (parties : List Identity) :
    List ProposalResponse × Option EndorseErr :=
  if !env.trackerOk then ([], some .trackerErr)
  else if !env.channelOk then ([], some .channelErr)
  else
    match env.localResults with
    | none => ([], some .resultsErr)
    | some res => collectParties env res parties

/-- Specification-side predicate: one response passes all the per-response
checks of the loop (well-formed, verifier resolvable, signature valid over
payload ++ endorser, results equal to the local results, append accepted). -/
def responseOK (env : EndorseEnv) (res : Bytes) : RawResponse → Bool
  | .malformed => false
  | .wellFormed r =>
      match getVerifier env r.endorser with
      | none => false
      | some v =>
          v (r.payload ++ r.endorser) r.endorserSignature
            && decide (res = r.results) && env.appendOk r

/-- Specification-side predicate: the response's endorser is bound to the
requested party. -/
def boundResponse (env : EndorseEnv) (party : Identity) : RawResponse → Bool
  | .malformed => false
  | .wellFormed r => env.isBoundTo r.endorser party

/-- Specification-side predicate: the party contributes successfully to the
collection — a local party endorses in-process; a remote party's exchange
succeeds, every response in its reply passes the per-response checks, and
at least one response is bound to the party. -/
def goodParty (env : EndorseEnv) (res : Bytes) (party : Identity) : Bool :=
  if env.isMe party then env.endorseLocalOk party
  else
    env.marshalOk && env.sessionOk party && env.sendOk party &&
      match env.reply party with
      | .responses rs =>
          env.fnsOk && rs.all (responseOK env res)
            && rs.any (boundResponse env party)
      | _ => false

/-- The claim's per-party condition as stated: the party returns exactly
one response, and that response is verified (bound to the party) and
signature-valid with results equal to the local results. -/
def claimExactlyOneParty (env : EndorseEnv) (res : Bytes) (party : Identity) :
    Bool :=
  match env.reply party with
  | .responses [raw] => responseOK env res raw && boundResponse env party raw
  | _ => false

/-- The well-formed responses of a reply, in order. -/
def extractResponses : List RawResponse → List ProposalResponse
  | [] => []
  | .malformed :: rest => extractResponses rest
  | .wellFormed r :: rest => r :: extractResponses rest

end Endorser

namespace Manager

/-- A Go panic value, as switched on by the recover block of `RunView`:
an `error`, a string, or anything else. -/
inductive PanicVal where
  | errVal (code : Nat)
  | strVal (s : String)
  | otherVal (code : Nat)
deriving DecidableEq

/-- Errors `RunView` can return. -/
inductive RunErr where
  | optionsErr
  | noViewPassed
  | viewErr (code : Nat)
  | caughtPanicErr (code : Nat)
  | caughtPanicStr (s : String)
  | caughtPanicOther (code : Nat)
deriving DecidableEq

/-- Behaviour of one cleanup callback registered via `OnError`: it either
returns normally or panics when invoked. -/
inductive CbBehavior where
  | returns
  | panics
deriving DecidableEq

/-- How the execution of the view (or of `options.Call`) ends: a normal
return of (result, error), or a panic carrying a value. -/
inductive ViewOutcome where
  | ret (res : Option Nat) (err : Option RunErr)
  | panicked (p : PanicVal)
deriving DecidableEq

/-- Behaviour of one run of a view on the child context: the cleanup
callbacks it registers via `OnError`, in order, and how it ends. -/
structure ViewRun where
  callbacks : List CbBehavior
  outcome : ViewOutcome
deriving DecidableEq

/-- Input to `RunView`: whether `CompileRunViewOptions` succeeds, whether a
view and/or a `Call` option is passed, and the behaviour of the executed
view. -/
structure RunViewInput where
  optionsOk : Bool
  hasView : Bool
  hasCall : Bool
  run : ViewRun

/-- `safeInvoke`: run one callback, recovering its panic; the returned flag
records whether a panic was recovered. Control always comes back. -/
def safeInvoke : CbBehavior → Bool
  | .returns => false
  | .panics => true

/-- `cleanup`: invoke every registered callback in order through
`safeInvoke`; the trace has one entry per registered callback. -/
def cleanup (cbs : List CbBehavior) : List Bool :=
  cbs.map safeInvoke

/-- The type switch of the recover block: derive the returned error from
the panic value. -/
def panicToErr : PanicVal → RunErr
  | .errVal c => .caughtPanicErr c
  | .strVal s => .caughtPanicStr s
  | .otherVal c => .caughtPanicOther c

/-- `childContext.RunView`: compile options, reject a call with neither a
view nor a `Call` option, run the view on a fresh child context, and on a
panic recover it, run the child's cleanup callbacks, and return a nil
result with the error derived from the panic value.  The third component
is the trace of cleanup-callback invocations. -/
def RunView (inp : RunViewInput) : Option Nat × Option RunErr × List Bool :=
  if !inp.optionsOk then (none, some .optionsErr, [])
  else if !inp.hasView && !inp.hasCall then (none, some .noViewPassed, [])
  else
    match inp.run.outcome with
    | .ret r e => (r, e, [])
    | .panicked p => (none, some (panicToErr p), cleanup inp.run.callbacks)

end Manager

namespace Committer

/-- The empty listener registry. -/
def stEmpty : Listeners := fun _ => []

/-- Oracle with tx 1 Valid and every other tx Invalid. -/
def envDecided : FinEnv :=
  { committerOk := true
    status := fun t => if t = 1 then .ok (.valid, []) else .ok (.invalid, [])
    statusOnTimeout := fun _ => .ok (.valid, [])
    external := fun _ => none
    listenOutcome := fun _ => .timeout
    newChan := 0 }

/-- Oracle with tx 1 Busy on dependencies [2, 3], tx 2 Invalid, tx 3 Valid. -/
def envDeps : FinEnv :=
  { committerOk := true
    status := fun t =>
      if t = 1 then .ok (.busy, [2, 3])
      else if t = 2 then .ok (.invalid, [])
      else .ok (.valid, [])
    statusOnTimeout := fun _ => .ok (.valid, [])
    external := fun _ => none
    listenOutcome := fun _ => .timeout
    newChan := 0 }

/-- Oracle reporting every tx Unknown; the external finality service
answers with a distinctive error. -/
def envUnknownStatus : FinEnv :=
  { committerOk := true
    status := fun _ => .ok (.unknown, [])
    statusOnTimeout := fun _ => .ok (.valid, [])
    external := fun t => some (.externalErr t 9)
    listenOutcome := fun _ => .timeout
    newChan := 4 }

/-- Oracle reporting every tx Busy with no dependencies; an event with a
nil error arrives on the subscriber channel. -/
def envBusyEmpty : FinEnv :=
  { committerOk := true
    status := fun _ => .ok (.busy, [])
    statusOnTimeout := fun _ => .ok (.valid, [])
    external := fun _ => none
    listenOutcome := fun t => .event { txid := t, err := none, dependantTxIDs := [] }
    newChan := 7 }

/-- Oracle for the listening state: initial status Busy-no-deps, timeout
fires, and the re-query reports Busy again. -/
def envTimeoutBusy : FinEnv :=
  { committerOk := true
    status := fun _ => .ok (.busy, [])
    statusOnTimeout := fun _ => .ok (.busy, [])
    external := fun _ => none
    listenOutcome := fun _ => .timeout
    newChan := 3 }

/-- An opaque endorser-transaction handler for `Commit`. -/
def commitEnvOpaque : CommitEnv := { handleEndorser := fun _ _ => emptyEvent }

/-- A block with one endorser transaction and no metadata at all. -/
def blockNoMetadata : Block := { data := [.decoded 3 7], metadata := [] }

/-- A block with one endorser transaction and exactly two metadata entries:
the TRANSACTIONS_FILTER entry (index 2) is absent. -/
def blockTwoMetadata : Block := { data := [.decoded 3 7], metadata := [[0], [0]] }

end Committer

namespace Endorser

/-- The local party. -/
def pSelf : Identity := [1]

/-- The remote party B. -/
def pB : Identity := [2]

/-- A response by endorser identity [10] with signature accepted by the
concrete verifiers below and results [5]. -/
def respB1 : ProposalResponse :=
  { endorser := [10], payload := [1], endorserSignature := [7], results := [5] }

/-- A second valid response, by endorser identity [11]. -/
def respB2 : ProposalResponse :=
  { endorser := [11], payload := [1], endorserSignature := [7], results := [5] }

/-- Environment in which the only (remote) party replies with TWO bound,
signature-valid responses whose results match the local results [5]. -/
def envTwoResponses : EndorseEnv :=
  { trackerOk := true
    channelOk := true
    fnsOk := true
    localResults := some [5]
    isMe := fun _ => false
    endorseLocalOk := fun _ => true
    marshalOk := true
    sessionOk := fun _ => true
    sendOk := fun _ => true
    reply := fun _ => .responses [.wellFormed respB1, .wellFormed respB2]
    isBoundTo := fun _ _ => true
    mspVerifier := fun _ => some fun _ s => decide (s = [7])
    providers := []
    appendOk := fun _ => true }

/-- Environment in which party B's reply carries one response signed by an
identity NOT bound to B (the binding check fails for every identity), while
the signature itself verifies and the results match. -/
def envUnbound : EndorseEnv :=
  { trackerOk := true
    channelOk := true
    fnsOk := true
    localResults := some [5]
    isMe := fun i => decide (i = pSelf)
    endorseLocalOk := fun _ => true
    marshalOk := true
    sessionOk := fun _ => true
    sendOk := fun _ => true
    reply := fun _ => .responses [.wellFormed respB1]
    isBoundTo := fun _ _ => false
    mspVerifier := fun _ => some fun _ s => decide (s = [7])
    providers := []
    appendOk := fun _ => true }

end Endorser

namespace Manager

/-- A run whose view registers three cleanup callbacks — the middle one
itself panics — and then panics with a string value. -/
def runPanicking : RunViewInput :=
  { optionsOk := true
    hasView := true
    hasCall := false
    run := { callbacks := [.returns, .panics, .returns]
             outcome := .panicked (.strVal "boom") } }

end Manager

namespace Committer

theorem removeFirstChan_of_not_mem {ch : ChanID} {l : List ChanID}
    (h : ch ∉ l) : removeFirstChan ch l = l := by
  induction l with
  | nil => rfl
  | cons a l ih =>
      simp only [List.mem_cons, not_or] at h
      simp [removeFirstChan, Ne.symm h.1, ih h.2]

theorem removeFirstChan_append_of_not_mem {ch : ChanID} {l1 : List ChanID}
    (h : ch ∉ l1) (l2 : List ChanID) :
    removeFirstChan ch (l1 ++ ch :: l2) = l1 ++ l2 := by
  induction l1 with
  | nil => simp [removeFirstChan]
  | cons a l ih =>
      simp only [List.mem_cons, not_or] at h
      simp [removeFirstChan, Ne.symm h.1, ih h.2]

theorem deleteListener_addListener (st : Listeners) (txid : TxID)
    (ch : ChanID) (h : ch ∉ st txid) :
    deleteListener (addListener st txid ch) txid ch = st := by
  funext t
  by_cases ht : t = txid
  · subst ht
    have : st t ++ [ch] = st t ++ ch :: [] := rfl
    simp [deleteListener, addListener, this,
      removeFirstChan_append_of_not_mem h]
  · simp [deleteListener, addListener, ht]

theorem listenTo_state_restored (env : FinEnv) (ch : ChanID) (st : Listeners)
    (txid : TxID) (h : ch ∉ st txid) :
    (listenTo env ch st txid).2.1 = st := by
  unfold listenTo
  cases env.listenOutcome txid with
  | event e => simp [deleteListener_addListener st txid ch h]
  | timeout =>
      by_cases hc : env.committerOk
      · cases hq : env.statusOnTimeout txid with
        | ok p =>
            obtain ⟨vd, deps⟩ := p
            cases vd <;>
              simp [hc, hq, deleteListener_addListener st txid ch h]
        | error u => simp [hc, hq, deleteListener_addListener st txid ch h]
      · simp [hc, deleteListener_addListener st txid ch h]

end Committer

namespace Committer

/-- C2: for every transaction id whose initial status query succeeds, a
Valid status makes `IsFinal` return nil, an Invalid status makes it return
a non-nil error, and in no execution (any fuel, any registry state, whether
or not the committer lookup succeeds) does `IsFinal` return success for a
transaction whose status is Invalid. -/
theorem isFinal_decides_valid_invalid (env : FinEnv) (fuel : Nat)
    (st : Listeners) (txid : TxID) (deps : List TxID) :
    (env.committerOk = true → env.status txid = .ok (.valid, deps) →
      (IsFinal env fuel st txid).1 = none) ∧
    (env.status txid = .ok (.invalid, deps) →
      ((IsFinal env fuel st txid).1).isSome = true) := by
  constructor
  · intro hc hs
    simp [IsFinal, hc, hs]
  · intro hs
    by_cases hc : env.committerOk <;> simp [IsFinal, hc, hs]

/-- Witness for C2 at a concrete oracle: tx 1 is Valid and resolves to nil,
tx 2 is Invalid and resolves to a non-nil error. -/
theorem isFinal_decides_valid_invalid_witness :
    (IsFinal envDecided 0 stEmpty 1).1 = none ∧
    ((IsFinal envDecided 0 stEmpty 2).1).isSome = true :=
  ⟨(isFinal_decides_valid_invalid envDecided 0 stEmpty 1 []).1 rfl rfl,
   (isFinal_decides_valid_invalid envDecided 0 stEmpty 2 []).2 rfl⟩

/-- C3: on Busy or HasDependencies with a non-empty dependency list,
`IsFinal` equals the fail-fast fold `resolveDepsWith` over the dependency
ids (prefixed by the single query of the transaction's own status: the
result, the registry state and the whole collaborator log are exactly those
of the dependency resolution, so the own status is never re-queried
afterwards); the fold resolves dependencies depth-first in list order,
propagates the first failing dependency's result without examining later
dependencies, and returns nil on the empty remainder. -/
theorem isFinal_dependency_resolution (env : FinEnv) (fuel : Nat)
    (st : Listeners) (txid : TxID) (vd : VStatus) (deps : List TxID)
    (hc : env.committerOk = true)
    (hs : env.status txid = .ok (vd, deps))
    (hv : vd = .busy ∨ vd = .hasDependencies)
    (hne : deps ≠ []) :
    (IsFinal env (fuel + 1) st txid =
      (let r := resolveDepsWith (fun s t => IsFinal env fuel s t) st deps
       (r.1, r.2.1, .statusQuery txid :: r.2.2))) ∧
    (∀ (f : Listeners → TxID → Option GoErr × Listeners × List LogEntry)
       (s : Listeners) (d : TxID) (ds : List TxID) (e : GoErr)
       (s2 : Listeners) (lg : List LogEntry),
      f s d = (some e, s2, lg) →
      resolveDepsWith f s (d :: ds) = (some e, s2, lg)) ∧
    (∀ (f : Listeners → TxID → Option GoErr × Listeners × List LogEntry)
       (s : Listeners) (d : TxID) (ds : List TxID)
       (s2 : Listeners) (lg : List LogEntry),
      f s d = (none, s2, lg) →
      resolveDepsWith f s (d :: ds) =
        (let r := resolveDepsWith f s2 ds
         (r.1, r.2.1, lg ++ r.2.2))) ∧
    (∀ (f : Listeners → TxID → Option GoErr × Listeners × List LogEntry)
       (s : Listeners),
      resolveDepsWith f s ([] : List TxID) = (none, s, [])) := by
  refine ⟨?_, ?_, ?_, ?_⟩
  · rcases hv with h | h <;> subst h <;>
      (conv_lhs => rw [IsFinal.eq_def]) <;> simp [hc, hs, hne]
  · intro f s d ds e s2 lg h
    simp [resolveDepsWith, h]
  · intro f s d ds s2 lg h
    simp [resolveDepsWith, h]
  · intro f s
    simp [resolveDepsWith]

/-- Witness for C3 at a concrete oracle: tx 1 is Busy on [2, 3], tx 2 is
Invalid; the call returns tx 2's failure and the log shows that tx 3 was
never queried and tx 1's own status was queried exactly once. -/
theorem isFinal_dependency_resolution_witness :
    (IsFinal envDeps 1 stEmpty 1 =
      (let r := resolveDepsWith (fun s t => IsFinal envDeps 0 s t) stEmpty [2, 3]
       (r.1, r.2.1, .statusQuery 1 :: r.2.2))) ∧
    IsFinal envDeps 1 stEmpty 1 =
      (some (.notValid 2), stEmpty, [.statusQuery 1, .statusQuery 2]) :=
  ⟨(isFinal_dependency_resolution envDeps 0 stEmpty 1 .busy [2, 3] rfl rfl
      (Or.inl rfl) (by decide)).1, rfl⟩

/-- C4 counterexample: at a concrete oracle reporting Unknown for tx 1,
`IsFinal` does NOT subscribe to the listener registry (the collaborator log
is exactly the status query followed by the delegation to the external
peer finality service, with no subscription for the allocated channel);
it returns the external service's result instead of listening. -/
theorem isFinal_unknown_counterexample :
    envUnknownStatus.status 1 = .ok (.unknown, []) ∧
    IsFinal envUnknownStatus 3 stEmpty 1 =
      (some (.externalErr 1 9), stEmpty,
        [.statusQuery 1, .externalFinality 1]) ∧
    LogEntry.subscribed 1 envUnknownStatus.newChan ∉
      (IsFinal envUnknownStatus 3 stEmpty 1).2.2 :=
  ⟨rfl, rfl, by decide⟩

/-- C4 (amended): when the initial query reports Unknown — and likewise
HasDependencies with an empty dependency list — `IsFinal` delegates to the
external peer finality service (`c.finality.IsFinal`) without touching the
listener registry; the Listening state (subscribe, block on the channel or
the timeout, unsubscribe on return) is entered exactly when the query
reports Busy with an empty dependency list. -/
theorem isFinal_listening_entry (env : FinEnv) (fuel : Nat) (st : Listeners)
    (txid : TxID) (deps : List TxID) (hc : env.committerOk = true) :
    (env.status txid = .ok (.unknown, deps) →
      IsFinal env fuel st txid =
        (env.external txid, st, [.statusQuery txid, .externalFinality txid])) ∧
    (env.status txid = .ok (.hasDependencies, []) →
      IsFinal env fuel st txid =
        (env.external txid, st, [.statusQuery txid, .externalFinality txid])) ∧
    (env.status txid = .ok (.busy, []) →
      IsFinal env fuel st txid =
        (let r := listenTo env env.newChan st txid
         (r.1, r.2.1, .statusQuery txid :: r.2.2))) := by
  refine ⟨fun hs => ?_, fun hs => ?_, fun hs => ?_⟩ <;> simp [IsFinal, hc, hs]

/-- Witness for the amended C4: Unknown delegates to the external service;
Busy with no dependencies enters the Listening state. -/
theorem isFinal_listening_entry_witness :
    (IsFinal envUnknownStatus 0 stEmpty 1 =
      (envUnknownStatus.external 1, stEmpty,
        [.statusQuery 1, .externalFinality 1])) ∧
    (IsFinal envBusyEmpty 0 stEmpty 1 =
      (let r := listenTo envBusyEmpty envBusyEmpty.newChan stEmpty 1
       (r.1, r.2.1, .statusQuery 1 :: r.2.2))) :=
  ⟨(isFinal_listening_entry envUnknownStatus 0 stEmpty 1 [] rfl).1 rfl,
   (isFinal_listening_entry envBusyEmpty 0 stEmpty 1 [] rfl).2.2 rfl⟩

end Committer

namespace Committer

/-- C5: in the Listening state, if an event arrives on the subscriber
channel first, `listenTo` returns that event's error field (nil = success);
if the timeout fires first, it re-queries the status oracle exactly once
(the log of the timeout path is precisely subscribe, timeout, one status
re-query, unsubscribe) and returns nil on Valid, a non-nil error on
Invalid, and otherwise a non-nil timeout error that carries the last known
status (`some vd` when the re-query answered `vd`, `none` when the
re-query itself failed). -/
theorem listenTo_event_or_timeout (env : FinEnv) (ch : ChanID)
    (st : Listeners) (txid : TxID) (e : TxEvent) (vd : VStatus)
    (deps : List TxID) :
    (env.listenOutcome txid = .event e →
      (listenTo env ch st txid).1 = e.err) ∧
    (env.listenOutcome txid = .timeout → env.committerOk = true →
      ((listenTo env ch st txid).2.2 =
        [.subscribed txid ch, .timedOut txid, .statusRequery txid,
         .unsubscribed txid ch]) ∧
      (env.statusOnTimeout txid = .ok (.valid, deps) →
        (listenTo env ch st txid).1 = none) ∧
      (env.statusOnTimeout txid = .ok (.invalid, deps) →
        (listenTo env ch st txid).1 = some (.notValid txid)) ∧
      (env.statusOnTimeout txid = .ok (vd, deps) → vd ≠ .valid →
        vd ≠ .invalid →
        (listenTo env ch st txid).1 = some (.timeoutErr txid (some vd))) ∧
      (∀ u : Unit, env.statusOnTimeout txid = .error u →
        (listenTo env ch st txid).1 = some (.timeoutErr txid none))) := by
  constructor
  · intro h
    simp [listenTo, h]
  · intro h hc
    refine ⟨?_, fun hq => ?_, fun hq => ?_, fun hq h1 h2 => ?_,
      fun u hq => ?_⟩
    · cases hq : env.statusOnTimeout txid with
      | ok p =>
          obtain ⟨vd', deps'⟩ := p
          cases vd' <;> simp [listenTo, h, hc, hq]
      | error u => simp [listenTo, h, hc, hq]
    · simp [listenTo, h, hc, hq]
    · simp [listenTo, h, hc, hq]
    · cases vd <;> simp_all [listenTo, h, hc, hq]
    · simp [listenTo, h, hc, hq]

/-- Witness for C5: an event with nil error yields nil; with the timeout
environment whose re-query answers Busy, the call returns the timeout
error naming Busy and the log shows exactly one re-query. -/
theorem listenTo_event_or_timeout_witness :
    ((listenTo envBusyEmpty 7 stEmpty 1).1 = none) ∧
    ((listenTo envTimeoutBusy 3 stEmpty 1).2.2 =
      [.subscribed 1 3, .timedOut 1, .statusRequery 1, .unsubscribed 1 3]) ∧
    ((listenTo envTimeoutBusy 3 stEmpty 1).1 =
      some (.timeoutErr 1 (some .busy))) :=
  ⟨(listenTo_event_or_timeout envBusyEmpty 7 stEmpty 1
      { txid := 1, err := none, dependantTxIDs := [] } .busy []).1 rfl,
   ((listenTo_event_or_timeout envTimeoutBusy 3 stEmpty 1
      { txid := 1, err := none, dependantTxIDs := [] } .busy []).2 rfl rfl).1,
   ((listenTo_event_or_timeout envTimeoutBusy 3 stEmpty 1
      { txid := 1, err := none, dependantTxIDs := [] } .busy []).2 rfl
      rfl).2.2.2.1 rfl (by decide) (by decide)⟩

/-- C6: `notify` (whose whole body runs under the single registry mutex)
performs one send per registration: a pair (ch, ev) is sent iff ev is the
notified event and ch is registered under the event's txid or under one of
its dependant ids — so no registered channel is missed — and the number of
sends is exactly the number of channels registered under the txid plus
those under each dependant id. -/
theorem notify_fanout (st : Listeners) (e : TxEvent) (ch : ChanID)
    (ev : TxEvent) :
    ((ch, ev) ∈ notify st e ↔
      ev = e ∧ (ch ∈ st e.txid ∨ ∃ t ∈ e.dependantTxIDs, ch ∈ st t)) ∧
    (notify st e).length =
      (st e.txid).length +
        (e.dependantTxIDs.map fun t => (st t).length).sum := by
  constructor
  · constructor
    · intro h
      rcases List.mem_append.1 h with h1 | h1
      · rcases List.mem_map.1 h1 with ⟨a, ha, hae⟩
        cases hae
        exact ⟨rfl, Or.inl ha⟩
      · rcases List.mem_flatMap.1 h1 with ⟨t, ht, h2⟩
        rcases List.mem_map.1 h2 with ⟨a, ha, hae⟩
        cases hae
        exact ⟨rfl, Or.inr ⟨t, ht, ha⟩⟩
    · rintro ⟨rfl, h | ⟨t, ht, h⟩⟩
      · exact List.mem_append.2 (Or.inl (List.mem_map.2 ⟨ch, h, rfl⟩))
      · exact List.mem_append.2
          (Or.inr (List.mem_flatMap.2 ⟨t, ht, List.mem_map.2 ⟨ch, h, rfl⟩⟩))
  · simp [notify, List.length_flatMap, Function.comp_def, List.length_map]

/-- C7: every channel freshly subscribed by `listenTo` is removed again on
every return path — for a channel not already registered, the final
registry equals the initial one, and the log of every path contains the
subscription and the unsubscription exactly once — and `deleteListener`
removes exactly the first matching channel under the id, being a no-op
when the channel (or the id) is not registered and leaving every other id
untouched. -/
theorem listener_subscribe_unsubscribe_balance (env : FinEnv) (ch : ChanID)
    (st : Listeners) (txid : TxID) (l1 l2 : List ChanID) :
    (ch ∉ st txid → (listenTo env ch st txid).2.1 = st) ∧
    ((listenTo env ch st txid).2.2.count (.subscribed txid ch) = 1 ∧
     (listenTo env ch st txid).2.2.count (.unsubscribed txid ch) = 1) ∧
    (ch ∉ st txid → deleteListener st txid ch = st) ∧
    (ch ∉ l1 → removeFirstChan ch (l1 ++ ch :: l2) = l1 ++ l2) ∧
    (∀ t, t ≠ txid → deleteListener st txid ch t = st t) := by
  refine ⟨listenTo_state_restored env ch st txid, ⟨?_, ?_⟩,
    fun h => ?_, fun h => removeFirstChan_append_of_not_mem h l2,
    fun t ht => ?_⟩
  · unfold listenTo
    cases env.listenOutcome txid with
    | event e => simp
    | timeout =>
        by_cases hc : env.committerOk
        · cases hq : env.statusOnTimeout txid with
          | ok p =>
              obtain ⟨vd, deps⟩ := p
              cases vd <;> simp [hc, hq]
          | error u => simp [hc, hq]
        · simp [hc]
  · unfold listenTo
    cases env.listenOutcome txid with
    | event e => simp
    | timeout =>
        by_cases hc : env.committerOk
        · cases hq : env.statusOnTimeout txid with
          | ok p =>
              obtain ⟨vd, deps⟩ := p
              cases vd <;> simp [hc, hq]
          | error u => simp [hc, hq]
        · simp [hc]
  · funext t
    by_cases ht : t = txid
    · subst ht
      simp [deleteListener, removeFirstChan_of_not_mem h]
    · simp [deleteListener, ht]
  · simp [deleteListener, ht]

/-- Witness for C7 at a concrete state with other registrations present:
subscribing and unsubscribing channel 9 for tx 1 restores the registry,
and deleting from a singleton list removes exactly the first match. -/
theorem listener_subscribe_unsubscribe_balance_witness :
    ((listenTo envBusyEmpty 9 (fun t => if t = 1 then [5] else [6]) 1).2.1 =
      (fun t => if t = 1 then [5] else [6])) ∧
    (9 ∉ (fun t : TxID => if t = 1 then [5] else [6]) 1 →
      deleteListener (fun t => if t = 1 then [5] else [6]) 1 9 =
        (fun t => if t = 1 then [5] else [6])) ∧
    removeFirstChan 9 ([5, 6] ++ 9 :: [7]) = [5, 6] ++ [7] :=
  ⟨(listener_subscribe_unsubscribe_balance envBusyEmpty 9
      (fun t => if t = 1 then [5] else [6]) 1 [5, 6] [7]).1 (by decide),
   (listener_subscribe_unsubscribe_balance envBusyEmpty 9
      (fun t => if t = 1 then [5] else [6]) 1 [5, 6] [7]).2.2.1,
   (listener_subscribe_unsubscribe_balance envBusyEmpty 9
      (fun t => if t = 1 then [5] else [6]) 1 [5, 6] [7]).2.2.2.1
      (by decide)⟩

end Committer

namespace Committer

/-- C8: the metadata guard of `Commit` at concrete failing inputs.  With no
metadata at all the endorser transaction makes `Commit` return the
metadata-lacks-filter error; but with exactly TWO metadata entries the
transaction-validation-code array (index TRANSACTIONS_FILTER = 2) is still
absent — the block carries no array covering the transaction's index — yet
the guard `len(Metadata.Metadata) < TRANSACTIONS_FILTER` passes, `Commit`
proceeds into the endorser-transaction handler and returns no error: the
check is off by one against its own error message. -/
theorem commit_metadata_filter_gap :
    Commit commitEnvOpaque blockNoMetadata = .error .metadataLacksFilter ∧
    blockTwoMetadata.metadata.length =
      BlockMetadataIndex_TRANSACTIONS_FILTER ∧
    Commit commitEnvOpaque blockTwoMetadata = .ok [emptyEvent] := by
  refine ⟨rfl, rfl, rfl⟩

end Committer

namespace Endorser

theorem processResponses_err_none_iff (env : EndorseEnv) (party : Identity)
    (res : Bytes) (rs : List RawResponse) (found : Bool) :
    (processResponses env party res rs found).2.2 = none ↔
      rs.all (responseOK env res) = true := by
  induction rs generalizing found with
  | nil => simp [processResponses]
  | cons raw rest ih =>
      cases raw with
      | malformed => simp [processResponses, responseOK]
      | wellFormed r =>
          cases hv : getVerifier env r.endorser with
          | none => simp [processResponses, responseOK, hv]
          | some v =>
              by_cases hsig : v (r.payload ++ r.endorser) r.endorserSignature
              · by_cases hres : res = r.results
                · subst hres
                  by_cases happ : env.appendOk r
                  · simp [processResponses, responseOK, hv, hsig, happ, ih]
                  · simp [processResponses, responseOK, hv, hsig, happ]
                · simp [processResponses, responseOK, hv, hsig, hres]
              · simp [processResponses, responseOK, hv, hsig]

theorem processResponses_found_eq (env : EndorseEnv) (party : Identity)
    (res : Bytes) (rs : List RawResponse) (found : Bool)
    (h : rs.all (responseOK env res) = true) :
    (processResponses env party res rs found).2.1 =
      (found || rs.any (boundResponse env party)) := by
  induction rs generalizing found with
  | nil => simp [processResponses]
  | cons raw rest ih =>
      cases raw with
      | malformed => simp [responseOK] at h
      | wellFormed r =>
          simp only [List.all_cons, Bool.and_eq_true] at h
          obtain ⟨hr, hrest⟩ := h
          simp only [responseOK] at hr
          cases hv : getVerifier env r.endorser with
          | none => simp [hv] at hr
          | some v =>
              simp only [hv, Bool.and_eq_true, decide_eq_true_eq] at hr
              obtain ⟨⟨hsig, hres⟩, happ⟩ := hr
              subst hres
              simp [processResponses, hv, hsig, happ, ih _ hrest,
                boundResponse, Bool.or_assoc]

theorem processResponses_appended_eq (env : EndorseEnv) (party : Identity)
    (res : Bytes) (rs : List RawResponse) (found : Bool)
    (h : rs.all (responseOK env res) = true) :
    (processResponses env party res rs found).1 = extractResponses rs := by
  induction rs generalizing found with
  | nil => simp [processResponses, extractResponses]
  | cons raw rest ih =>
      cases raw with
      | malformed => simp [responseOK] at h
      | wellFormed r =>
          simp only [List.all_cons, Bool.and_eq_true] at h
          obtain ⟨hr, hrest⟩ := h
          simp only [responseOK] at hr
          cases hv : getVerifier env r.endorser with
          | none => simp [hv] at hr
          | some v =>
              simp only [hv, Bool.and_eq_true, decide_eq_true_eq] at hr
              obtain ⟨⟨hsig, hres⟩, happ⟩ := hr
              subst hres
              simp [processResponses, hv, hsig, happ, ih _ hrest,
                extractResponses]

theorem processParty_none_iff (env : EndorseEnv) (res : Bytes)
    (party : Identity) :
    (processParty env res party).2 = none ↔
      goodParty env res party = true := by
  by_cases hme : env.isMe party
  · by_cases hend : env.endorseLocalOk party <;>
      simp [processParty, goodParty, hme, hend]
  · by_cases hmar : env.marshalOk
    · by_cases hsess : env.sessionOk party
      · by_cases hsend : env.sendOk party
        · cases hreply : env.reply party with
          | timeout => simp [processParty, goodParty, hme, hmar, hsess,
              hsend, hreply]
          | errorMsg p => simp [processParty, goodParty, hme, hmar, hsess,
              hsend, hreply]
          | badPayload => simp [processParty, goodParty, hme, hmar, hsess,
              hsend, hreply]
          | responses rs =>
              by_cases hfns : env.fnsOk
              · by_cases hall : rs.all (responseOK env res) = true
                · have he := (processResponses_err_none_iff env party res
                    rs false).2 hall
                  have hf := processResponses_found_eq env party res rs
                    false hall
                  by_cases hany : rs.any (boundResponse env party) = true
                  · simp [processParty, goodParty, hme, hmar, hsess, hsend,
                      hreply, hfns, hall, hany, he, hf]
                  · simp [processParty, goodParty, hme, hmar, hsess, hsend,
                      hreply, hfns, hall, hany, he, hf]
                · have he : (processResponses env party res rs
                      false).2.2.isSome = true := by
                    cases hx : (processResponses env party res rs
                        false).2.2 with
                    | none => exact absurd ((processResponses_err_none_iff
                        env party res rs false).1 hx) hall
                    | some e => rfl
                  cases hx : (processResponses env party res rs
                      false).2.2 with
                  | none => simp [hx] at he
                  | some e => simp [processParty, goodParty, hme, hmar,
                      hsess, hsend, hreply, hfns, hall, hx]
              · simp [processParty, goodParty, hme, hmar, hsess, hsend,
                  hreply, hfns]
        · simp [processParty, goodParty, hme, hmar, hsess, hsend]
      · simp [processParty, goodParty, hme, hmar, hsess]
    · simp [processParty, goodParty, hme, hmar]

theorem collectParties_none_iff (env : EndorseEnv) (res : Bytes)
    (parties : List Identity) :
    (collectParties env res parties).2 = none ↔
      ∀ p ∈ parties, goodParty env res p = true := by
  induction parties with
  | nil => simp [collectParties]
  | cons party rest ih =>
      cases hp : (processParty env res party).2 with
      | none =>
          have hg := (processParty_none_iff env res party).1 hp
          simp [collectParties, hp, ih, hg]
      | some e =>
          have hg : ¬ goodParty env res party = true := fun hgood =>
            by simp [(processParty_none_iff env res party).2 hgood] at hp
          simp [collectParties, hp, hg]

end Endorser

namespace Endorser

/-- C1 counterexample: the call succeeds on an environment whose single
(remote) required party replies with TWO bound, signature-valid responses
with matching results — so success does not imply that every party
returned exactly one such response, refuting the claimed equivalence at
this input. -/
theorem collect_exactly_one_counterexample :
    (collectEndorsementsCall envTwoResponses [pB]).2 = none ∧
    claimExactlyOneParty envTwoResponses [5] pB = false := by decide

/-- C1 (amended): under a working tracker, channel and local-results
computation, `collectEndorsementsView.Call` succeeds and returns the
transaction iff every required party contributes successfully: a local
party's in-process endorsement succeeds, and a remote party's exchange
succeeds with a timely non-error reply in which every response is
well-formed, has a resolvable verifier, a valid signature over
(payload ++ endorser) and results equal to the locally computed results,
and at least ONE (not necessarily exactly one) response is bound to the
party.  Any single failure among these checks fails the whole call, so no
partial success is reported as success. -/
theorem collectEndorsements_succeeds_iff (env : EndorseEnv)
    (parties : List Identity) (res : Bytes)
    (h1 : env.trackerOk = true) (h2 : env.channelOk = true)
    (h3 : env.localResults = some res) :
    (collectEndorsementsCall env parties).2 = none ↔
      ∀ p ∈ parties, goodParty env res p = true := by
  simp [collectEndorsementsCall, h1, h2, h3, collectParties_none_iff]

/-- Witness for the amended C1 at the two-response environment: the call
succeeds and indeed every party of the list is a good party. -/
theorem collectEndorsements_succeeds_iff_witness :
    (collectEndorsementsCall envTwoResponses [pB]).2 = none ↔
      ∀ p ∈ [pB], goodParty envTwoResponses [5] p = true :=
  collectEndorsements_succeeds_iff envTwoResponses [pB] [5] rfl rfl rfl

/-- C9 counterexample: parties [self, PartyB], where PartyB's reply holds a
response signed by an identity bound to no one; the call fails with the
invalid-endorsement error for PartyB, but — refuting the claim's second
half — PartyB's (signature-valid, results-matching) response HAS been
appended to the transaction before the failure was detected. -/
theorem invalid_endorsement_appended_counterexample :
    (collectEndorsementsCall envUnbound [pSelf, pB]).2 =
      some (.invalidEndorsement pB) ∧
    respB1 ∈ (collectEndorsementsCall envUnbound [pSelf, pB]).1 := by decide

/-- C9 (amended): when a remote party's reply contains only responses that
individually pass the verifier, signature and results checks but none of
which is signed by an identity bound to that party, the call fails with
the invalid-endorsement error for that party; however all those responses
have already been appended to the transaction's response list (the append
happens response by response, before the binding verdict is reached, and
partial progress is not rolled back). -/
theorem unbound_reply_invalid_endorsement (env : EndorseEnv) (res : Bytes)
    (party : Identity) (rs : List RawResponse)
    (hme : env.isMe party = false) (hmar : env.marshalOk = true)
    (hsess : env.sessionOk party = true) (hsend : env.sendOk party = true)
    (hfns : env.fnsOk = true)
    (hreply : env.reply party = .responses rs)
    (hok : rs.all (responseOK env res) = true)
    (hnb : rs.any (boundResponse env party) = false) :
    (processParty env res party).2 = some (.invalidEndorsement party) ∧
    (processParty env res party).1 = extractResponses rs := by
  have he := (processResponses_err_none_iff env party res rs false).2 hok
  have hf := processResponses_found_eq env party res rs false hok
  have ha := processResponses_appended_eq env party res rs false hok
  constructor <;>
    simp [processParty, hme, hmar, hsess, hsend, hfns, hreply, he, hf, ha,
      hnb]

/-- Witness for the amended C9 at the unbound environment. -/
theorem unbound_reply_invalid_endorsement_witness :
    (processParty envUnbound [5] pB).2 = some (.invalidEndorsement pB) ∧
    (processParty envUnbound [5] pB).1 =
      extractResponses [.wellFormed respB1] :=
  unbound_reply_invalid_endorsement envUnbound [5] pB [.wellFormed respB1]
    (by decide) rfl rfl rfl rfl rfl (by decide) (by decide)

end Endorser

namespace Manager

/-- C10: whenever the execution of the view (or of the Call option) ends in
a panic, `childContext.RunView` returns — the panic does not escape — with
a nil result and a non-nil error derived from the panic value by the type
switch of the recover block, and it invokes every cleanup callback that the
execution registered via `OnError` on the child context, in order, through
`safeInvoke`, which recovers a callback's own panic so that the remaining
callbacks still run (the trace has one entry per registered callback). -/
theorem runView_recovers_panic (inp : RunViewInput) (p : PanicVal)
    (ho : inp.optionsOk = true)
    (hv : inp.hasView = true ∨ inp.hasCall = true)
    (hp : inp.run.outcome = .panicked p) :
    RunView inp = (none, some (panicToErr p), cleanup inp.run.callbacks) ∧
    (RunView inp).2.1 ≠ none ∧
    (RunView inp).2.2.length = inp.run.callbacks.length := by
  have hno : (!inp.hasView && !inp.hasCall) = false := by
    rcases hv with h | h <;> simp [h]
  refine ⟨?_, ?_, ?_⟩ <;> simp [RunView, ho, hno, hp, cleanup]

/-- Witness for C10: a view registering three callbacks (the middle one
panicking) and then panicking with a string; RunView returns nil result,
the caught-panic error, and a three-entry cleanup trace. -/
theorem runView_recovers_panic_witness :
    RunView runPanicking =
      (none, some (panicToErr (.strVal "boom")),
        cleanup runPanicking.run.callbacks) ∧
    (RunView runPanicking).2.1 ≠ none ∧
    (RunView runPanicking).2.2.length =
      runPanicking.run.callbacks.length :=
  runView_recovers_panic runPanicking (.strVal "boom") rfl (Or.inl rfl) rfl

end Manager
